import Mathlib

/-!
Verification development for the uat-bbox FlatGeobuf bounding-box extractor
(C++ sources under src/: bounding_box.cpp/hpp, geometry_processor.cpp/hpp,
flatgeobuf_processor.cpp/hpp, thread_pool.hpp, types.hpp, main.cpp).

The C++ code is shallowly embedded: `double` coordinates become `ℚ` (the
operations used on them — `std::min`, `std::max`, comparisons — are exact on
the values considered, NaN/infinity behaviour aside), raw bytes become `Nat`
values (each byte below 256 in well-formed inputs), and `std::string` becomes
`String`.  Out-parameters become extra components of the returned tuple.
FlatBuffers-generated accessors (which are external, generated code, not part
of this repository) are modelled as record fields; nullable FlatBuffers
pointers become `Option`.
-/

set_option maxRecDepth 8000

/-- Exact value of std::numeric_limits of double ::max(), i.e.
2 ^ 1024 - 2 ^ 971, written as an integer literal so that it evaluates by
kernel reduction; `dblMax_eq_pow` ties the literal to the closed form. -/
def dblMax : ℚ := 179769313486231570814527423731704356798070567525844996598917476803157260780028538760589558632766878171540458953514382464234321326889464182768467546703537516986049910576551282076245490090389328944075868508455133942304583236903222948165808559332123348274797826204144723168738177180919299881250404026184124858368

/-- Embedding of std::min on double: returns b when b < a, else a. -/
def cppMin (a b : ℚ) : ℚ := if b < a then b else a

/-- Embedding of std::max on double: returns b when a < b, else a. -/
def cppMax (a b : ℚ) : ℚ := if a < b then b else a

/-- Embedding of struct bounding_box (bounding_box.hpp): four coordinates and
a validity flag. -/
structure bounding_box where
  min_x : ℚ
  min_y : ℚ
  max_x : ℚ
  max_y : ℚ
  is_valid : Bool
deriving DecidableEq

/-- Default-constructed bounding_box, with the member initializers from
bounding_box.hpp: min_x/min_y start at std::numeric_limits of double ::max();
max_x/max_y use the value initializer, so they start at 0 (the accompanying
doc comment in the header claims they start at the lowest double, which the
code does not do); is_valid starts false. -/
def bounding_box.initial : bounding_box :=
  { min_x := dblMax, min_y := dblMax, max_x := 0, max_y := 0, is_valid := false }

/-- Embedding of bounding_box::update (bounding_box.cpp lines 9-16). -/
def bounding_box.update (b : bounding_box) (x y : ℚ) : bounding_box :=
  { min_x := cppMin b.min_x x
    min_y := cppMin b.min_y y
    max_x := cppMax b.max_x x
    max_y := cppMax b.max_y y
    is_valid := true }

/-- Folding bounding_box::update over a finite sequence of points, in order. -/
def bounding_box.fold_updates (b : bounding_box) (ps : List (ℚ × ℚ)) : bounding_box :=
  ps.foldl (fun a p => a.update p.1 p.2) b

/-- Embedding of the FlatGeobuf geometry-type enum values this program
distinguishes; every constructor other than Polygon and MultiPolygon takes
the default branch of the switch in geometry_processor.cpp. -/
inductive GeometryType where
  | Unknown
  | Point
  | LineString
  | MultiPoint
  | MultiLineString
  | Polygon
  | MultiPolygon
deriving DecidableEq

/-- Embedding of the FlatBuffers-generated FlatGeobuf::Geometry table as this
program reads it: the flat coordinate array xy() (a null or empty vector both
become the empty list) and the nullable parts() vector whose entries are
themselves nullable geometry pointers. -/
inductive Geometry where
  | mk (xy : List ℚ) (parts : Option (List (Option Geometry)))

def Geometry.xy : Geometry → List ℚ
  | .mk xy _ => xy

def Geometry.parts : Geometry → Option (List (Option Geometry))
  | .mk _ parts => parts

/-- Loop of geometry_processor::update_bbox_from_coordinates
(geometry_processor.cpp lines 126-127): while i + 1 < num_doubles, update the
box from coords[i], coords[i+1] and advance i by stride.  The extra 0 < stride
guard makes the recursion total; the C++ loop would not terminate either with
stride 0, and every caller passes stride ≥ 2 (coordinate_stride_val below). -/
def update_bbox_go (coords : List ℚ) (stride : Nat) (bb : bounding_box) (i : Nat) : bounding_box :=
  if _h : i + 1 < coords.length ∧ 0 < stride then
    update_bbox_go coords stride (bb.update (coords.getD i 0) (coords.getD (i + 1) 0)) (i + stride)
  else bb
termination_by coords.length - i
decreasing_by omega

/-- Embedding of geometry_processor::update_bbox_from_coordinates
(geometry_processor.cpp lines 114-128): a null or empty coordinate vector
leaves the box untouched, otherwise the stride loop runs from index 0. -/
def update_bbox_from_coordinates (bb : bounding_box) (xy : List ℚ) (stride : Nat) : bounding_box :=
  if xy.length = 0 then bb else update_bbox_go xy stride bb 0

/-- Embedding of geometry_processor::process_single_polygon_for_bbox
(geometry_processor.cpp lines 131-152): iterate the polygon's rings (parts),
updating the box from each non-null ring's coordinates; a polygon with no
parts table but its own coordinates is treated as a single ring. -/
def process_single_polygon_for_bbox (bb : bounding_box) (polygon : Option Geometry)
    (coordinate_stride : Nat) : bounding_box :=
  match polygon with
  | none => bb
  | some poly =>
    match poly.parts with
    | some rings =>
      rings.foldl
        (fun acc ring =>
          match ring with
          | some r => update_bbox_from_coordinates acc r.xy coordinate_stride
          | none => acc)
        bb
    | none =>
      if poly.xy.length > 0 then update_bbox_from_coordinates bb poly.xy coordinate_stride else bb

/-- Embedding of geometry_processor::calculate_for_geometry
(geometry_processor.cpp lines 155-196): dispatch on the geometry type; a null
geometry yields the initial (invalid) box; MultiPolygon iterates its non-null
polygon parts; other types fall back to the geometry's own flat coordinates. -/
def calculate_for_geometry (geometry : Option Geometry) (coordinate_stride : Nat)
    (actual_geometry_type : GeometryType) : bounding_box :=
  let bbox := bounding_box.initial
  match geometry with
  | none => bbox
  | some g =>
    match actual_geometry_type with
    | .Polygon => process_single_polygon_for_bbox bbox (some g) coordinate_stride
    | .MultiPolygon =>
      match g.parts with
      | some polygon_parts =>
        polygon_parts.foldl
          (fun acc part =>
            match part with
            | some p => process_single_polygon_for_bbox acc (some p) coordinate_stride
            | none => acc)
          bbox
      | none => bbox
    | _ =>
      if g.xy.length > 0 then update_bbox_from_coordinates bbox g.xy coordinate_stride else bbox

/-- Default coordinate stride constant from flatgeobuf_processor.hpp. -/
def default_coordinate_stride : Nat := 2

/-- Embedding of the stride computation in flatgeobuf_processor::process_features
(flatgeobuf_processor.cpp lines 378-383): start from the default stride and
increment once for has_z and once for has_m. -/
def coordinate_stride_val (has_z has_m : Bool) : Nat :=
  let s := default_coordinate_stride
  let s := if has_z then s + 1 else s
  if has_m then s + 1 else s

/-- First ring of the first polygon for the C2 evaluation: a unit-square-like
ring with all coordinates negative, extent min (-6,-6), max (-5,-5). -/
def c2_ring1 : Geometry := .mk [-6, -6, -5, -6, -5, -5, -6, -5] none

/-- Ring of the second polygon for the C2 evaluation: extent min (-4,-4),
max (-3,-3), disjoint from the first ring's extent. -/
def c2_ring2 : Geometry := .mk [-4, -4, -3, -4, -3, -3, -4, -3] none

def c2_polygon1 : Geometry := .mk [] (some [some c2_ring1])

def c2_polygon2 : Geometry := .mk [] (some [some c2_ring2])

/-- MultiPolygon of two polygons with disjoint, all-negative extents. -/
def c2_multipolygon : Geometry := .mk [] (some [some c2_polygon1, some c2_polygon2])

/-- Float formatting state of a std::ostream: the floatfield bits of
std::ios_base::fmtflags, the only formatting flags this program modifies. -/
inductive FloatField where
  | defaultfloat
  | fixed
  | scientific
deriving DecidableEq

/-- Formatting flags of a stream, as read and restored via os.flags(). -/
structure FmtFlags where
  floatfield : FloatField
deriving DecidableEq

/-- Shallow model of a std::ostream: formatting flags, precision and the text
written so far. -/
structure OStream where
  flags : FmtFlags
  precision : Nat
  out : String
deriving DecidableEq

/-- Writing text (operator<< on strings/chars/integers) appends to the output
and leaves the formatting state unchanged. -/
def OStream.writeStr (os : OStream) (s : String) : OStream := { os with out := os.out ++ s }

/-- Effect of os << std::fixed. -/
def OStream.setFixed (os : OStream) : OStream :=
  { os with flags := { os.flags with floatfield := .fixed } }

/-- Effect of os << std::setprecision(p). -/
def OStream.setPrecision (os : OStream) (p : Nat) : OStream := { os with precision := p }

/-- Zero-pads a digit string on the left to the given width. -/
def padLeftZeros (w : Nat) (s : String) : String :=
  if s.length < w then String.mk (List.replicate (w - s.length) '0') ++ s else s

/-- Fixed-notation digit string of a nonnegative scaled integer at the given
precision (no decimal point when the precision is 0, as with iostreams). -/
def renderFixedNat (prec : Nat) (n : Nat) : String :=
  if prec = 0 then toString n
  else toString (n / 10 ^ prec) ++ "." ++ padLeftZeros prec (toString (n % 10 ^ prec))

/-- Fixed-notation rendering of a rational at the given precision, modelling
iostream output under std::fixed.  The C runtime breaks ties by
round-to-nearest-even; this model rounds half away from zero — no claim in
this development depends on the rendered digits. -/
def renderFixed (prec : Nat) (q : ℚ) : String :=
  if q < 0 then "-" ++ renderFixedNat prec (Int.toNat (Int.floor (-q * 10 ^ prec + 1 / 2)))
  else renderFixedNat prec (Int.toNat (Int.floor (q * 10 ^ prec + 1 / 2)))

/-- Writing a double with operator<< uses the stream's current precision (all
floating writes in this program happen with std::fixed set) and leaves the
formatting state unchanged. -/
def OStream.writeQ (os : OStream) (q : ℚ) : OStream :=
  os.writeStr (renderFixed os.precision q)

/-- Embedding of struct county_code (types.hpp): a fixed pair of characters. -/
structure county_code where
  code0 : Char
  code1 : Char
deriving DecidableEq

/-- Default constructor of county_code: two space placeholders. -/
def county_code.default : county_code := ⟨' ', ' '⟩

/-- Embedding of the county_code string constructor (types.hpp lines 31-40):
take the first two characters, padding with spaces when the string is
shorter. -/
def county_code.ofString (s : String) : county_code :=
  match s.toList with
  | [] => ⟨' ', ' '⟩
  | [c] => ⟨c, ' '⟩
  | c0 :: c1 :: _ => ⟨c0, c1⟩

/-- Embedding of county_code::is_empty. -/
def county_code.is_empty (c : county_code) : Bool := (c.code0 == ' ') && (c.code1 == ' ')

/-- Embedding of county_code::to_string: empty string for the placeholder,
otherwise the two characters. -/
def county_code.to_string (c : county_code) : String :=
  if c.is_empty then "" else String.mk [c.code0, c.code1]

/-- Embedding of value.find_first_of(",\"\n") != npos in
write_csv_escaped_string (flatgeobuf_processor.cpp line 727). -/
def needs_csv_escaping (value : String) : Bool :=
  value.toList.any (fun c => c == ',' || c == '"' || c == '\n')

/-- Embedding of the character loop of write_csv_escaped_string: each
embedded double quote is written as two double quotes. -/
def csv_escape_chars : List Char → String
  | [] => ""
  | c :: rest => (if c == '"' then "\"\"" else String.singleton c) ++ csv_escape_chars rest

/-- Embedding of write_csv_escaped_string (flatgeobuf_processor.cpp lines
720-741): quote-wrap and double embedded quotes when the value contains a
comma, double quote or newline, else write the value verbatim. -/
def write_csv_escaped_string (out_file : OStream) (value : String) : OStream :=
  if needs_csv_escaping value then
    ((out_file.writeStr "\"").writeStr (csv_escape_chars value.toList)).writeStr "\""
  else out_file.writeStr value

/-- CSV delimiter constant from flatgeobuf_processor.hpp. -/
def csv_delimiter : String := ","

/-- CSV newline constant from flatgeobuf_processor.hpp. -/
def csv_newline : String := "\n"

/-- Coordinate precision constant from flatgeobuf_processor.hpp. -/
def csv_coordinate_precision : Nat := 3

/-- Area conversion constant from flatgeobuf_processor.hpp. -/
def square_meters_in_square_kilometer : ℚ := 1000000

/-- Marker written for an invalid bounding box (bounding_box.hpp). -/
def invalid_bbox_csv_marker : String := ",,,"

/-- Embedding of bounding_box::write_to_stream (bounding_box.cpp lines 18-33):
an invalid box writes the marker; a valid one saves the stream state, writes
the four coordinates under std::fixed at precision 3, and restores flags and
precision. -/
def bounding_box.write_to_stream (b : bounding_box) (os : OStream) : OStream :=
  if b.is_valid = false then os.writeStr invalid_bbox_csv_marker
  else
    let original_flags := os.flags
    let original_precision := os.precision
    let st := (os.setFixed).setPrecision csv_coordinate_precision
    let st := ((((((st.writeQ b.min_x).writeStr ",").writeQ b.min_y).writeStr
      ",").writeQ b.max_x).writeStr ",").writeQ b.max_y
    { st with flags := original_flags, precision := original_precision }

/-- Embedding of flatgeobuf_processor::write_csv_row (flatgeobuf_processor.cpp
lines 744-801): name, code and county fields, then the four coordinates under
saved-and-restored fixed/precision-3 formatting (empty fields when the box is
invalid), then the area under saved-and-restored fixed/precision-1 formatting
(omitted when the box is invalid), then the newline. -/
def write_csv_row (out_file : OStream) (uat_name : String) (uat_code : Nat)
    (county_mn : county_code) (bbox : bounding_box) : OStream :=
  let st := write_csv_escaped_string out_file uat_name
  let st := st.writeStr csv_delimiter
  let st := st.writeStr (toString uat_code)
  let st := st.writeStr csv_delimiter
  let st := write_csv_escaped_string st county_mn.to_string
  let st := st.writeStr csv_delimiter
  let original_flags_coords := st.flags
  let original_precision_coords := st.precision
  let st := (st.setFixed).setPrecision csv_coordinate_precision
  let st :=
    if bbox.is_valid then
      ((((((st.writeQ bbox.min_x).writeStr csv_delimiter).writeQ bbox.min_y).writeStr
        csv_delimiter).writeQ bbox.max_x).writeStr csv_delimiter).writeQ bbox.max_y
    else
      ((st.writeStr csv_delimiter).writeStr csv_delimiter).writeStr csv_delimiter
  let st := { st with flags := original_flags_coords, precision := original_precision_coords }
  let st := st.writeStr csv_delimiter
  let st :=
    if bbox.is_valid then
      let width_m := bbox.max_x - bbox.min_x
      let height_m := bbox.max_y - bbox.min_y
      let area_sq_m := width_m * height_m
      let area_sq_km := area_sq_m / square_meters_in_square_kilometer
      let original_flags_area := st.flags
      let original_precision_area := st.precision
      let st2 := (st.setFixed).setPrecision 1
      let st2 := st2.writeQ area_sq_km
      { st2 with flags := original_flags_area, precision := original_precision_area }
    else st
  st.writeStr csv_newline

/-- Embedding of the FlatGeobuf column-type enum (FgbColumnType =
FlatGeobuf::ColumnType). -/
inductive ColumnType where
  | Byte
  | UByte
  | Bool
  | Short
  | UShort
  | Int
  | UInt
  | Long
  | ULong
  | Float
  | Double
  | String
  | Json
  | DateTime
  | Binary
deriving DecidableEq

/-- Little-endian unsigned value of w bytes of the blob starting at offset
off (flatbuffers::ReadScalar); a byte beyond the list reads as 0 — the
embedded decoder only reads offsets it has bounds-checked, which claim C5
makes precise. -/
def leNat (blob : List Nat) (off : Nat) : Nat → Nat
  | 0 => 0
  | w + 1 => blob.getD off 0 + 256 * leNat blob (off + 1) w

/-- Byte offsets dereferenced when reading w bytes starting at offset off. -/
def accessRange (off w : Nat) : List Nat := (List.range w).map (off + ·)

/-- Precision constant for floating-point properties
(flatgeobuf_processor.cpp line 19). -/
def property_double_precision : Nat := 15

/-- Decimal text of a w-byte little-endian unsigned scalar (std::to_string). -/
def renderUnsigned (blob : List Nat) (off w : Nat) : String := toString (leNat blob off w)

/-- Decimal text of a w-byte little-endian two's-complement signed scalar. -/
def renderSigned (blob : List Nat) (off w : Nat) : String :=
  let n := leNat blob off w
  if n < 2 ^ (8 * w - 1) then toString (n : Int) else toString ((n : Int) - 2 ^ (8 * w))

/-- Fixed-point text of an IEEE-754 value with the given mantissa and exponent
widths, from its raw bits: the float/double specializations of the C++ helper
print the value with std::fixed at precision 15.  Finite values are decoded
exactly into ℚ; infinities and NaN render as iostreams renders them. -/
def renderIEEE (mantBits expBits : Nat) (bits : Nat) : String :=
  let mant := bits % 2 ^ mantBits
  let exp := bits / 2 ^ mantBits % 2 ^ expBits
  let sign := bits / 2 ^ (mantBits + expBits) % 2
  let bias : Int := 2 ^ (expBits - 1) - 1
  if exp = 2 ^ expBits - 1 then
    if mant = 0 then (if sign = 1 then "-inf" else "inf") else "nan"
  else
    let mag : ℚ :=
      if exp = 0 then (mant : ℚ) * (2 : ℚ) ^ (1 - bias - (mantBits : Int))
      else ((2 ^ mantBits + mant : Nat) : ℚ) * (2 : ℚ) ^ ((exp : Int) - bias - (mantBits : Int))
    renderFixed property_double_precision (if sign = 1 then -mag else mag)

/-- Rendering of a 4-byte float property value from its bits. -/
def renderFloatBits (blob : List Nat) (off w : Nat) : String :=
  renderIEEE 23 8 (leNat blob off w)

/-- Rendering of an 8-byte double property value from its bits. -/
def renderDoubleBits (blob : List Nat) (off w : Nat) : String :=
  renderIEEE 52 11 (leNat blob off w)

/-- Embedding of read_scalar_as_string_static_helper (flatgeobuf_processor.cpp
lines 22-66, shape shared by the generic template and the float/double
specializations, which differ only in the rendering): when fewer than w bytes
remain, report zero bytes read and an empty string; otherwise read and render
w bytes.  The third component lists the byte offsets the C++ dereferences
through value_ptr, for the access-bound claim. -/
def read_scalar_as_string (w : Nat) (render : List Nat → Nat → Nat → String)
    (blob : List Nat) (off remaining : Nat) : String × Nat × List Nat :=
  if w > remaining then ("", 0, [])
  else (render blob off w, w, accessRange off w)

/-- Text of the len bytes starting at offset off, read as characters
(the std::string constructor from a char pointer and a length). -/
def stringFromBytes (blob : List Nat) (off len : Nat) : String :=
  String.mk ((List.range len).map (fun k => Char.ofNat (blob.getD (off + k) 0)))

/-- Embedding of read_and_convert_property_value_at_offset
(flatgeobuf_processor.cpp lines 458-532): bounds-guarded, type-dispatched
decoding of one property value.  Returns the rendered value, the bytes
consumed, and the list of blob offsets dereferenced.  The unhandled types
(Json, DateTime, Binary and anything else) take the default branch: warn and
return the empty string having read nothing. -/
def read_and_convert_property_value_at_offset (col_type : ColumnType) (blob : List Nat)
    (value_offset_in_blob properties_blob_size : Nat) : String × Nat × List Nat :=
  if value_offset_in_blob ≥ properties_blob_size then ("", 0, [])
  else
    let remaining := properties_blob_size - value_offset_in_blob
    match col_type with
    | .Byte => read_scalar_as_string 1 renderSigned blob value_offset_in_blob remaining
    | .UByte => read_scalar_as_string 1 renderUnsigned blob value_offset_in_blob remaining
    | .Bool =>
      let r := read_scalar_as_string 1 renderUnsigned blob value_offset_in_blob remaining
      (if r.1 = "" then "" else if r.1 = "0" then "false" else "true", r.2)
    | .Short => read_scalar_as_string 2 renderSigned blob value_offset_in_blob remaining
    | .UShort => read_scalar_as_string 2 renderUnsigned blob value_offset_in_blob remaining
    | .Int => read_scalar_as_string 4 renderSigned blob value_offset_in_blob remaining
    | .UInt => read_scalar_as_string 4 renderUnsigned blob value_offset_in_blob remaining
    | .Long => read_scalar_as_string 8 renderSigned blob value_offset_in_blob remaining
    | .ULong => read_scalar_as_string 8 renderUnsigned blob value_offset_in_blob remaining
    | .Float => read_scalar_as_string 4 renderFloatBits blob value_offset_in_blob remaining
    | .Double => read_scalar_as_string 8 renderDoubleBits blob value_offset_in_blob remaining
    | .String =>
      if 4 > remaining then ("", 0, [])
      else
        let len := leNat blob value_offset_in_blob 4
        if 4 + len > remaining then ("", 0, accessRange value_offset_in_blob 4)
        else
          (stringFromBytes blob (value_offset_in_blob + 4) len, 4 + len,
            accessRange value_offset_in_blob (4 + len))
    | _ => ("", 0, [])

/-- Embedding of skip_property_value_at_offset (flatgeobuf_processor.cpp lines
535-621): the byte width of a property value by type, clamped to the
remaining bytes.  The early `return remaining_size` paths of the C++ all
return a value the final clamp would leave unchanged, so they are expressed
through the single clamp here.  Second component: the blob offsets
dereferenced (the four length bytes of a length-prefixed value; fixed-width
skips dereference nothing). -/
def skip_property_value_at_offset (col_type : ColumnType) (blob : List Nat)
    (value_offset_in_blob properties_blob_size : Nat) : Nat × List Nat :=
  if value_offset_in_blob ≥ properties_blob_size then (0, [])
  else
    let remaining := properties_blob_size - value_offset_in_blob
    let r : Nat × List Nat :=
      match col_type with
      | .Byte | .UByte | .Bool => (1, [])
      | .Short | .UShort => (2, [])
      | .Int | .UInt | .Float => (4, [])
      | .Long | .ULong | .Double => (8, [])
      | .String | .Json | .DateTime | .Binary =>
        if 4 > remaining then (remaining, [])
        else (4 + leNat blob value_offset_in_blob 4, accessRange value_offset_in_blob 4)
    (if r.1 ≤ remaining then r.1 else remaining, r.2)

/-- Scan loop of get_string_value_for_property (flatgeobuf_processor.cpp lines
639-690): while bytes remain, read a 2-byte column index (stop when fewer
than two bytes remain); abort with the empty value when the index is outside
the column schema (corrupt data); decode and return when it is the target;
otherwise skip the value (stop if skipping would pass the end) and continue.
The Get(idx) null-schema branch (line 659) cannot arise in the model, where
the schema is a total list.  The second component collects every blob offset
dereferenced along the way. -/
def scan_properties (columns : List ColumnType) (blob : List Nat)
    (target_column_index : Nat) (off : Nat) : String × List Nat :=
  if _h : off < blob.length then
    if off + 2 > blob.length then ("", [])
    else
      let current_fbs_col_idx := leNat blob off 2
      let acc0 := accessRange off 2
      if current_fbs_col_idx ≥ columns.length then ("", acc0)
      else
        let col_type := columns.getD current_fbs_col_idx .Byte
        if current_fbs_col_idx = target_column_index then
          let r := read_and_convert_property_value_at_offset col_type blob (off + 2) blob.length
          (r.1, acc0 ++ r.2.2)
        else
          let s := skip_property_value_at_offset col_type blob (off + 2) blob.length
          if s.1 > blob.length - (off + 2) then ("", acc0 ++ s.2)
          else
            let rest := scan_properties columns blob target_column_index (off + 2 + s.1)
            (rest.1, acc0 ++ s.2 ++ rest.2)
  else ("", [])
termination_by blob.length - off
decreasing_by omega

/-- Embedding of get_string_value_for_property (flatgeobuf_processor.cpp lines
624-693): input guards (a feature without a properties vector is the empty
blob; a target index outside the schema yields the empty value), then the
scan from offset 0. -/
def get_string_value_for_property (columns : List ColumnType) (blob : List Nat)
    (target_column_index : Nat) : String × List Nat :=
  if target_column_index ≥ columns.length then ("", [])
  else scan_properties columns blob target_column_index 0

/-- Embedding of the FlatBuffers-parsed view of one feature record (the
fields of FlatGeobuf::Feature that this program reads): the properties blob
(a feature without a properties vector has the empty blob), the nullable
geometry pointer, and the type tag stored on that geometry table (what
geometry_ptr->type() returns when the pointer is non-null).  FlatBuffers
table parsing is generated code external to this repository; the pipeline
model receives it as the parse_feature map from a record's byte offset to
this view — the framing loop itself decides only from the raw buffer bytes
which offsets get parsed. -/
structure feature_view where
  properties : List Nat
  geometry : Option Geometry
  geometry_type : GeometryType

/-- State flatgeobuf_processor carries into the feature loop: the parse
oracle, the column schema (the declared type of each column, in order), the
three pre-resolved column indices, and the coordinate stride. -/
structure pipeline_context where
  parse_feature : Nat → feature_view
  columns : List ColumnType
  uat_name_column_index : Option Nat
  uat_code_column_index : Option Nat
  county_mn_column_index : Option Nat
  coordinate_stride : Nat

/-- Embedding of struct task_input_data (types.hpp lines 73-88). -/
structure task_input_data where
  uat_name : String
  uat_code : Nat
  county_mn : county_code
  geometry_ptr : Option Geometry
  coordinate_stride : Nat
  actual_geometry_type : GeometryType

instance : Inhabited task_input_data :=
  ⟨⟨"", 0, county_code.default, none, 0, .Unknown⟩⟩

/-- Embedding of struct task_result (types.hpp lines 92-102). -/
structure task_result where
  uat_name : String
  uat_code : Nat
  county_mn : county_code
  bbox : bounding_box
deriving DecidableEq

/-- Embedding of flatgeobuf_processor::process_single_feature_task
(flatgeobuf_processor.cpp lines 804-811): the pure, noexcept task body run by
a worker thread. -/
def process_single_feature_task (task_data : task_input_data) : task_result :=
  { uat_name := task_data.uat_name
    uat_code := task_data.uat_code
    county_mn := task_data.county_mn
    bbox := calculate_for_geometry task_data.geometry_ptr task_data.coordinate_stride
      task_data.actual_geometry_type }

/-- Embedding of ::isspace over the default C locale, as used by the trim in
submit_feature_tasks. -/
def isCppSpace (c : Char) : Bool :=
  c == ' ' || c == '\t' || c == '\n' || c == '\x0b' || c == '\x0c' || c == '\r'

/-- Embedding of the find_if_not/erase whitespace trims on the UAT code
string (flatgeobuf_processor.cpp lines 221-224). -/
def trim_whitespace (s : String) : String :=
  String.mk (((s.toList.dropWhile isCppSpace).reverse.dropWhile isCppSpace).reverse)

/-- Value of a decimal digit string (the accumulation std::from_chars
performs). -/
def digitsToNat (l : List Char) : Nat := l.foldl (fun acc c => acc * 10 + (c.toNat - 48)) 0

/-- Embedding of the std::from_chars parse of the trimmed UAT code
(flatgeobuf_processor.cpp lines 227-241): the parsed value is assigned only
when the string is nonempty, consists solely of decimal digits (so the whole
string is consumed), and the value fits in uint32; in every other case —
parse failure, trailing junk, overflow — the code stays 0. -/
def parse_uat_code (s : String) : Nat :=
  let l := s.toList
  if l ≠ [] ∧ l.all (fun c => c.isDigit) ∧ digitsToNat l < 2 ^ 32 then digitsToNat l else 0

/-- Per-record extraction in submit_feature_tasks (flatgeobuf_processor.cpp
lines 200-265): UAT name from the pre-resolved column with the
Name_Unavailable fallback, trimmed-and-parsed UAT code defaulting to 0,
county code from its column, and the geometry reference with its type tag
(Unknown when the geometry pointer is null).  feature_submission_count is the
number of features submitted before this one (the counter before its
increment). -/
def extract_task_input (ctx : pipeline_context) (record_offset : Nat)
    (feature_submission_count : Nat) : task_input_data :=
  let f := ctx.parse_feature record_offset
  let uat_name_raw :=
    match ctx.uat_name_column_index with
    | some i => (get_string_value_for_property ctx.columns f.properties i).1
    | none => ""
  let uat_name_val :=
    if uat_name_raw = "" then "Name_Unavailable_Index_" ++ toString (feature_submission_count + 1)
    else uat_name_raw
  let uat_code_val :=
    match ctx.uat_code_column_index with
    | some i =>
      parse_uat_code (trim_whitespace
        ((get_string_value_for_property ctx.columns f.properties i).1))
    | none => 0
  let county_mn_str :=
    match ctx.county_mn_column_index with
    | some i => (get_string_value_for_property ctx.columns f.properties i).1
    | none => ""
  { uat_name := uat_name_val
    uat_code := uat_code_val
    county_mn := county_code.ofString county_mn_str
    geometry_ptr := f.geometry
    coordinate_stride := ctx.coordinate_stride
    actual_geometry_type :=
      match f.geometry with
      | some _ => f.geometry_type
      | none => .Unknown }

/-- Framing loop of submit_feature_tasks (flatgeobuf_processor.cpp lines
170-276), by remaining iteration count: read the 4-byte little-endian record
length at the cursor; stop with false (partial processing) when the length
field or the declared record would run past the buffer; otherwise submit the
record at this offset and continue past it.  Returns the submitted record
offsets in submission order and the success flag.  GetSizePrefixedFeature on
an in-bounds record never returns a null table, so the null-check `continue`
branch at line 194 is not represented. -/
def submit_feature_tasks_go (buffer : List Nat) : Nat → Nat → List Nat × Bool
  | 0, _ => ([], true)
  | i + 1, current_offset =>
    if current_offset + 4 > buffer.length then ([], false)
    else
      let feature_fbs_buffer_size := leNat buffer current_offset 4
      if current_offset + 4 + feature_fbs_buffer_size > buffer.length then ([], false)
      else
        let r := submit_feature_tasks_go buffer i (current_offset + 4 + feature_fbs_buffer_size)
        (current_offset :: r.1, r.2)

/-- Embedding of flatgeobuf_processor::submit_feature_tasks: iterate the
framing loop features_count times starting just after the header (and skipped
index). -/
def submit_feature_tasks (buffer : List Nat) (features_to_process : Nat)
    (initial_offset : Nat) : List Nat × Bool :=
  submit_feature_tasks_go buffer features_to_process initial_offset

/-- Embedding of collect_and_write_results (flatgeobuf_processor.cpp lines
283-311): iterate the futures in submission order, writing one CSV row per
future; return whether the written count equals the submitted count.  The
task body is noexcept and total and the row write is modelled as non-failing,
so the per-row catch branch (which would skip a row) never fires in the
model: every future yields and every row is written. -/
def collect_and_write_results (processing_futures : List task_input_data)
    (total_features_submitted : Nat) : List task_result × Bool :=
  let rows := processing_futures.map process_single_feature_task
  (rows, rows.length == total_features_submitted)

/-- Embedding of the feature-processing tail of process_features
(flatgeobuf_processor.cpp lines 391-405): submit the tasks — a partial
submission only logs a warning and the run continues — then collect with
total = the number actually submitted (feature_submission_count_).  Result:
the CSV data rows in order, and the overall success flag process_features
returns. -/
def process_features_run (ctx : pipeline_context) (buffer : List Nat)
    (features_count initial_offset : Nat) : List task_result × Bool :=
  let submitted := submit_feature_tasks buffer features_count initial_offset
  let feature_submission_count := submitted.1.length
  let processing_futures := (submitted.1.enum).map (fun p => extract_task_input ctx p.2 p.1)
  let collected := collect_and_write_results processing_futures feature_submission_count
  (collected.1, collected.2)

/-- Embedding of the exit path of run_application (main.cpp line 113): exit
code 0 when process_features returns true, 1 when it returns false. -/
def run_application_exit_code (ctx : pipeline_context) (buffer : List Nat)
    (features_count initial_offset : Nat) : Nat :=
  if (process_features_run ctx buffer features_count initial_offset).2 then 0 else 1

/-- A pipeline context with an empty schema and a trivial parse oracle, used
for closed evaluations of the framing loop, whose behaviour does not depend
on the context. -/
def trivial_pipeline_context : pipeline_context :=
  ⟨fun _ => ⟨[], none, .Unknown⟩, [], none, none, none, 2⟩

/-- Feature stream for the C1 evaluation: a complete zero-length feature
record (4 length bytes, value 0) followed by a record declaring 10 payload
bytes where none remain — the truncation the claim describes. -/
def c1_truncated_buffer : List Nat := [0, 0, 0, 0, 10, 0, 0, 0]

/-- One completion step of the worker-pool model: the worker that finishes
task j fulfills task j's future with the value the pure task body computes
from task j's input (std::packaged_task binds each future 1:1 to its task). -/
def complete_task (tasks : List task_input_data) (results : List (Option task_result))
    (j : Nat) : List (Option task_result) :=
  results.set j (some (process_single_feature_task (tasks.getD j default)))

/-- Futures array after the workers complete tasks in the order given by the
schedule: the thread pool guarantees nothing about completion order, so the
schedule is an arbitrary permutation of the task indices. -/
def run_schedule (tasks : List task_input_data) (schedule : List Nat) :
    List (Option task_result) :=
  schedule.foldl (complete_task tasks) (List.replicate tasks.length none)

/-- Collection in submission order: collect_and_write_results iterates the
futures vector in submission order, blocking on each in turn, so row i is
read from future i. -/
def collect_in_submission_order (tasks : List task_input_data) (schedule : List Nat) :
    List (Option task_result) :=
  (List.range tasks.length).map (fun i => (run_schedule tasks schedule).getD i none)

theorem dblMax_eq_pow : dblMax = 2 ^ 1024 - 2 ^ 971 := by norm_num [dblMax]

theorem cppMin_eq_min (a b : ℚ) : cppMin a b = min a b := by
  simp only [cppMin, min_def]
  by_cases h : a ≤ b
  · rw [if_neg (not_lt_of_le h), if_pos h]
  · rw [if_pos (lt_of_not_le h), if_neg h]

theorem cppMax_eq_max (a b : ℚ) : cppMax a b = max a b := by
  simp only [cppMax, max_def]
  by_cases h : a ≤ b
  · rcases eq_or_lt_of_le h with h2 | h2
    · simp [h2]
    · rw [if_pos h2, if_pos h]
  · rw [if_neg (lt_asymm (lt_of_not_le h)), if_neg h]

/-- Helper for claim C7: bounding_box::update is right-commutative, since min
and max on each component are. -/
theorem bounding_box_update_right_comm (b : bounding_box) (p q : ℚ × ℚ) :
    (b.update p.1 p.2).update q.1 q.2 = (b.update q.1 q.2).update p.1 p.2 := by
  simp only [bounding_box.update, cppMin_eq_min, cppMax_eq_max]
  simp [min_assoc, min_comm, min_left_comm, max_assoc, max_comm, max_left_comm]

/-- Helper for claim C3: folding updates from a box whose max components are
nonnegative keeps them nonnegative. -/
theorem fold_updates_max_nonneg (ps : List (ℚ × ℚ)) (b : bounding_box)
    (hx : 0 ≤ b.max_x) (hy : 0 ≤ b.max_y) :
    0 ≤ (b.fold_updates ps).max_x ∧ 0 ≤ (b.fold_updates ps).max_y := by
  induction ps generalizing b with
  | nil => exact ⟨hx, hy⟩
  | cons p rest ih =>
    simp only [bounding_box.fold_updates, List.foldl_cons] at *
    refine ih _ ?_ ?_
    · simp only [bounding_box.update, cppMax_eq_max]
      exact le_trans hx (le_max_left b.max_x p.1)
    · simp only [bounding_box.update, cppMax_eq_max]
      exact le_trans hy (le_max_left b.max_y p.2)

/-- C3: starting from a default-constructed bounding_box, after any finite
sequence of update(x, y) calls the max components are still nonnegative (they
start at 0, and update can only grow them), whatever the signs of the observed
coordinates.  The first conjunct gives the invariant after an arbitrary call
sequence (every intermediate state of a longer run is the final state of its
prefix, which is again an arbitrary sequence); the second conjunct is the
step fact that a single update never decreases a max component. -/
theorem c3_max_components_nonneg :
    (∀ ps : List (ℚ × ℚ),
        0 ≤ (bounding_box.initial.fold_updates ps).max_x ∧
        0 ≤ (bounding_box.initial.fold_updates ps).max_y) ∧
    (∀ (b : bounding_box) (x y : ℚ),
        b.max_x ≤ (b.update x y).max_x ∧ b.max_y ≤ (b.update x y).max_y) := by
  constructor
  · intro ps
    exact fold_updates_max_nonneg ps bounding_box.initial le_rfl le_rfl
  · intro b x y
    constructor
    · simp only [bounding_box.update, cppMax_eq_max]
      exact le_max_left b.max_x x
    · simp only [bounding_box.update, cppMax_eq_max]
      exact le_max_left b.max_y y

/-- C7: bounding_box::update is idempotent on a point already included in a
valid box's extent, and folding updates over a point sequence is invariant
under permutation of the sequence. -/
theorem c7_update_idempotent_order_independent :
    (∀ (b : bounding_box) (x y : ℚ), b.is_valid = true →
        b.min_x ≤ x → x ≤ b.max_x → b.min_y ≤ y → y ≤ b.max_y → b.update x y = b) ∧
    (∀ (b : bounding_box) (ps qs : List (ℚ × ℚ)), ps.Perm qs →
        b.fold_updates ps = b.fold_updates qs) := by
  constructor
  · rintro ⟨mnx, mny, mxx, mxy, v⟩ x y hv h1 h2 h3 h4
    simp only [bounding_box.update, cppMin, cppMax] at *
    rw [if_neg (not_lt_of_le h1), if_neg (not_lt_of_le h3),
        if_neg (not_lt_of_le h2), if_neg (not_lt_of_le h4), hv]
  · intro b ps qs h
    exact h.foldl_eq' (fun x _ y _ z => bounding_box_update_right_comm z x y) b

/-- Witness for C7 at concrete inputs. -/
theorem c7_update_idempotent_order_independent_witness :
    ((⟨0, 0, 2, 2, true⟩ : bounding_box).update 1 1 = ⟨0, 0, 2, 2, true⟩) ∧
    ((⟨0, 0, 0, 0, false⟩ : bounding_box).fold_updates [(1, 2), (3, 4)] =
      (⟨0, 0, 0, 0, false⟩ : bounding_box).fold_updates [(3, 4), (1, 2)]) :=
  ⟨c7_update_idempotent_order_independent.1 ⟨0, 0, 2, 2, true⟩ 1 1 rfl
      (by decide) (by decide) (by decide) (by decide),
    c7_update_idempotent_order_independent.2 ⟨0, 0, 0, 0, false⟩ _ _ (by decide)⟩

/-- C9: the stride computed from the header flags equals 2 + has_z + has_m. -/
theorem c9_coordinate_stride_formula (has_z has_m : Bool) :
    coordinate_stride_val has_z has_m =
      2 + (if has_z then 1 else 0) + (if has_m then 1 else 0) := by
  cases has_z <;> cases has_m <;> rfl

/-- C2 evaluation at the failing input: for a MultiPolygon whose two polygons
have all-negative coordinates, the code returns max components 0 (the
default-initialized value of max_x/max_y, never lowered by update), not the
componentwise union of the two extents, whose max would be (-3, -3).  The
claimed union bbox is the second record; the code's result differs from it. -/
theorem c2_multipolygon_negative_extent_eval :
    calculate_for_geometry (some c2_multipolygon) 2 .MultiPolygon =
      { min_x := -6, min_y := -6, max_x := 0, max_y := 0, is_valid := true } ∧
    calculate_for_geometry (some c2_multipolygon) 2 .MultiPolygon ≠
      { min_x := -6, min_y := -6, max_x := -3, max_y := -3, is_valid := true } := by
  have h : calculate_for_geometry (some c2_multipolygon) 2 .MultiPolygon =
      { min_x := -6, min_y := -6, max_x := 0, max_y := 0, is_valid := true } := by
    simp only [calculate_for_geometry, c2_multipolygon, c2_polygon1, c2_polygon2, c2_ring1,
      c2_ring2, Geometry.parts, Geometry.xy, List.foldl_cons, List.foldl_nil,
      process_single_polygon_for_bbox, bounding_box.initial]
    simp [update_bbox_from_coordinates, update_bbox_go, bounding_box.update, cppMin, cppMax]
    norm_num [dblMax]
  refine ⟨h, ?_⟩
  rw [h]
  decide

/-- Helper for claim C8: the escaping condition holds exactly when the value
contains a comma, a double quote or a newline. -/
theorem needs_csv_escaping_iff (value : String) :
    needs_csv_escaping value = true ↔
      (',' ∈ value.toList ∨ '"' ∈ value.toList ∨ '\n' ∈ value.toList) := by
  simp only [needs_csv_escaping, List.any_eq_true, Bool.or_eq_true, beq_iff_eq]
  constructor
  · rintro ⟨c, hc, (rfl | rfl) | rfl⟩ <;> tauto
  · rintro (h | h | h) <;> exact ⟨_, h, by simp⟩

/-- Helper for claim C8: the character loop of write_csv_escaped_string maps
each double quote to two double quotes and keeps every other character. -/
theorem csv_escape_chars_eq (l : List Char) :
    csv_escape_chars l =
      String.mk (l.flatMap (fun c => if c = '"' then ['"', '"'] else [c])) := by
  induction l with
  | nil => rfl
  | cons c rest ih =>
    simp only [csv_escape_chars, List.flatMap_cons, ih, beq_iff_eq]
    by_cases h : c = '"'
    · rw [if_pos h, if_pos h]
      rfl
    · rw [if_neg h, if_neg h]
      rfl

/-- C8: a CSV text field containing a comma, double quote or newline is
written wrapped in double quotes with each embedded double quote doubled;
any other field is written verbatim. -/
theorem c8_csv_field_escaping (st : OStream) (value : String) :
    (write_csv_escaped_string st value).out =
      st.out ++
        (if ',' ∈ value.toList ∨ '"' ∈ value.toList ∨ '\n' ∈ value.toList then
          "\"" ++ String.mk (value.toList.flatMap
            (fun c => if c = '"' then ['"', '"'] else [c])) ++ "\""
        else value) := by
  by_cases h : ',' ∈ value.toList ∨ '"' ∈ value.toList ∨ '\n' ∈ value.toList
  · rw [if_pos h]
    unfold write_csv_escaped_string
    rw [if_pos ((needs_csv_escaping_iff value).2 h), csv_escape_chars_eq]
    simp [OStream.writeStr, String.append_assoc]
  · rw [if_neg h]
    unfold write_csv_escaped_string
    rw [if_neg ?_]
    · rfl
    · intro hc
      exact h ((needs_csv_escaping_iff value).1 hc)

/-- Helper for claim C10: writing a string never changes flags or precision. -/
theorem writeStr_preserves_state (os : OStream) (s : String) :
    (os.writeStr s).flags = os.flags ∧ (os.writeStr s).precision = os.precision :=
  ⟨rfl, rfl⟩

/-- Helper for claim C10: the escaped-field writer never changes flags or
precision. -/
theorem write_csv_escaped_string_preserves_state (os : OStream) (value : String) :
    (write_csv_escaped_string os value).flags = os.flags ∧
      (write_csv_escaped_string os value).precision = os.precision := by
  unfold write_csv_escaped_string
  split <;> exact ⟨rfl, rfl⟩

/-- C10: writing a CSV data row restores the stream's formatting flags and
precision to their values on entry, and so does bounding_box::write_to_stream,
even though both set fixed notation and row-specific precisions internally. -/
theorem c10_stream_formatting_restored (os : OStream) (uat_name : String) (uat_code : Nat)
    (county_mn : county_code) (bbox : bounding_box) :
    ((write_csv_row os uat_name uat_code county_mn bbox).flags = os.flags ∧
      (write_csv_row os uat_name uat_code county_mn bbox).precision = os.precision) ∧
    ((bbox.write_to_stream os).flags = os.flags ∧
      (bbox.write_to_stream os).precision = os.precision) := by
  constructor
  · unfold write_csv_row
    rcases write_csv_escaped_string_preserves_state os uat_name with ⟨hf1, hp1⟩
    rcases write_csv_escaped_string_preserves_state
      (((write_csv_escaped_string os uat_name).writeStr csv_delimiter).writeStr
          (toString uat_code) |>.writeStr csv_delimiter) county_mn.to_string with ⟨hf2, hp2⟩
    cases hb : bbox.is_valid <;>
      simp [hb, OStream.writeStr, OStream.writeQ, OStream.setFixed, OStream.setPrecision,
        hf1, hp1, hf2, hp2] at *
    <;> simp_all
  · unfold bounding_box.write_to_stream
    split <;> exact ⟨rfl, rfl⟩

/-- Helper for claim C5: an offset in accessRange off w lies below off + w. -/
theorem accessRange_lt (off w o : Nat) (h : o ∈ accessRange off w) : o < off + w := by
  rcases List.mem_map.1 h with ⟨k, hk, rfl⟩
  have := List.mem_range.1 hk
  omega

/-- Helper for claim C5: the scalar-read helper only dereferences offsets
below off + remaining. -/
theorem read_scalar_access_lt (w : Nat) (render : List Nat → Nat → Nat → String)
    (blob : List Nat) (off remaining o : Nat)
    (h : o ∈ (read_scalar_as_string w render blob off remaining).2.2) :
    o < off + remaining := by
  unfold read_scalar_as_string at h
  split at h
  · simp at h
  · have h2 := accessRange_lt off w o h
    rename_i hw
    omega

/-- Helper for claim C5: read_and_convert only dereferences offsets below the
declared blob size. -/
theorem read_and_convert_access_lt (col_type : ColumnType) (blob : List Nat)
    (off size o : Nat)
    (h : o ∈ (read_and_convert_property_value_at_offset col_type blob off size).2.2) :
    o < size := by
  unfold read_and_convert_property_value_at_offset at h
  split at h
  · simp at h
  · rename_i hoff
    cases col_type <;> simp only at h
    case Byte => have := read_scalar_access_lt _ _ _ _ _ _ h; omega
    case UByte => have := read_scalar_access_lt _ _ _ _ _ _ h; omega
    case Bool => have := read_scalar_access_lt _ _ _ _ _ _ h; omega
    case Short => have := read_scalar_access_lt _ _ _ _ _ _ h; omega
    case UShort => have := read_scalar_access_lt _ _ _ _ _ _ h; omega
    case Int => have := read_scalar_access_lt _ _ _ _ _ _ h; omega
    case UInt => have := read_scalar_access_lt _ _ _ _ _ _ h; omega
    case Long => have := read_scalar_access_lt _ _ _ _ _ _ h; omega
    case ULong => have := read_scalar_access_lt _ _ _ _ _ _ h; omega
    case Float => have := read_scalar_access_lt _ _ _ _ _ _ h; omega
    case Double => have := read_scalar_access_lt _ _ _ _ _ _ h; omega
    case String =>
      split at h
      · simp at h
      · rename_i h4
        split at h
        · have := accessRange_lt off 4 o h
          omega
        · rename_i hlen
          have := accessRange_lt off (4 + leNat blob off 4) o h
          omega
    case Json => simp at h
    case DateTime => simp at h
    case Binary => simp at h

/-- Helper for claim C5: skip only dereferences offsets below the declared
blob size. -/
theorem skip_access_lt (col_type : ColumnType) (blob : List Nat) (off size o : Nat)
    (h : o ∈ (skip_property_value_at_offset col_type blob off size).2) :
    o < size := by
  unfold skip_property_value_at_offset at h
  split at h
  · simp at h
  · rename_i hoff
    cases col_type <;> simp only at h
    case String =>
      split at h
      · simp at h
      · rename_i h4
        have := accessRange_lt off 4 o h
        omega
    case Json =>
      split at h
      · simp at h
      · rename_i h4
        have := accessRange_lt off 4 o h
        omega
    case DateTime =>
      split at h
      · simp at h
      · rename_i h4
        have := accessRange_lt off 4 o h
        omega
    case Binary =>
      split at h
      · simp at h
      · rename_i h4
        have := accessRange_lt off 4 o h
        omega
    all_goals simp at h

/-- Helper for claim C5: the property scan only dereferences offsets below the
blob's size.  Proved by induction on the number of bytes left to scan. -/
theorem scan_properties_access_lt (columns : List ColumnType) (blob : List Nat)
    (target : Nat) :
    ∀ off, ∀ o ∈ (scan_properties columns blob target off).2, o < blob.length := by
  suffices main : ∀ fuel off, blob.length - off ≤ fuel →
      ∀ o ∈ (scan_properties columns blob target off).2, o < blob.length by
    intro off
    exact main (blob.length - off) off le_rfl
  intro fuel
  induction fuel with
  | zero =>
    intro off hfuel o ho
    rw [scan_properties, dif_neg (by omega)] at ho
    simp at ho
  | succ n ih =>
    intro off hfuel o ho
    rw [scan_properties] at ho
    split at ho
    case isFalse => simp at ho
    case isTrue h1 =>
      simp only at ho
      split at ho
      case isTrue h2 => simp at ho
      case isFalse h2 =>
        split at ho
        case isTrue h3 =>
          simp only at ho
          have := accessRange_lt off 2 o ho
          omega
        case isFalse h3 =>
          split at ho
          case isTrue h4 =>
            simp only at ho
            rcases List.mem_append.1 ho with ho2 | ho2
            · have := accessRange_lt off 2 o ho2
              omega
            · exact read_and_convert_access_lt _ _ _ _ _ ho2
          case isFalse h4 =>
            split at ho
            case isTrue h5 =>
              simp only at ho
              rcases List.mem_append.1 ho with ho2 | ho2
              · have := accessRange_lt off 2 o ho2
                omega
              · exact skip_access_lt _ _ _ _ _ ho2
            case isFalse h5 =>
              simp only at ho
              rcases List.mem_append.1 ho with ho2 | ho2
              · rcases List.mem_append.1 ho2 with ho3 | ho3
                · have := accessRange_lt off 2 o ho3
                  omega
                · exact skip_access_lt _ _ _ _ _ ho3
              · exact ih (off + 2 + (skip_property_value_at_offset
                  (columns.getD (leNat blob off 2) ColumnType.Byte) blob (off + 2)
                    blob.length).1) (by omega) o ho2

/-- C5: property decoding never dereferences a byte at an offset at or beyond
the blob's declared size — not the scan's 2-byte column-index reads, not a
scalar read, not the string length-prefix or content read, and not a
skip-width computation.  The access lists collect exactly the offsets the C++
dereferences through the properties-blob pointer. -/
theorem c5_property_decode_in_bounds :
    (∀ (col_type : ColumnType) (blob : List Nat) (off size : Nat),
        ∀ o ∈ (read_and_convert_property_value_at_offset col_type blob off size).2.2,
          o < size) ∧
    (∀ (col_type : ColumnType) (blob : List Nat) (off size : Nat),
        ∀ o ∈ (skip_property_value_at_offset col_type blob off size).2, o < size) ∧
    (∀ (columns : List ColumnType) (blob : List Nat) (target : Nat),
        ∀ o ∈ (get_string_value_for_property columns blob target).2, o < blob.length) := by
  refine ⟨fun ct blob off size o h => read_and_convert_access_lt ct blob off size o h,
    fun ct blob off size o h => skip_access_lt ct blob off size o h, ?_⟩
  intro columns blob target o ho
  unfold get_string_value_for_property at ho
  split at ho
  · simp at ho
  · exact scan_properties_access_lt columns blob target 0 o ho

/-- Witness for C5 at a concrete input: a one-String-column schema and the
blob encoding (column 0, "ABC"); offset 0 is among the dereferenced offsets
and lies below the blob size 9. -/
theorem c5_property_decode_in_bounds_witness :
    0 ∈ (get_string_value_for_property [ColumnType.String]
        [0, 0, 3, 0, 0, 0, 65, 66, 67] 0).2 ∧
    0 < ([0, 0, 3, 0, 0, 0, 65, 66, 67] : List Nat).length := by
  have hm : 0 ∈ (get_string_value_for_property [ColumnType.String]
      [0, 0, 3, 0, 0, 0, 65, 66, 67] 0).2 := by
    rw [get_string_value_for_property, if_neg (by decide), scan_properties]
    decide
  exact ⟨hm, c5_property_decode_in_bounds.2.2 [ColumnType.String]
    [0, 0, 3, 0, 0, 0, 65, 66, 67] 0 0 hm⟩

/-- C1 counterexample: on a feature stream whose second feature's declared
length exceeds the remaining bytes, submission stops after the first feature
(partial framing, flag false) — but the run's exit code is 0, not the failure
status 1 the claim states: collect_and_write_results compares the written
count against the number actually submitted, which still matches. -/
theorem c1_truncation_exit_counterexample :
    submit_feature_tasks c1_truncated_buffer 2 0 = ([0], false) ∧
    run_application_exit_code trivial_pipeline_context c1_truncated_buffer 2 0 = 0 ∧
    ¬ run_application_exit_code trivial_pipeline_context c1_truncated_buffer 2 0 = 1 := by
  refine ⟨by decide, by decide, by decide⟩

/-- Helper for claim C1: when the framing loop reports failure it has
submitted strictly fewer records than requested. -/
theorem submit_go_false_length_lt (buffer : List Nat) :
    ∀ (i off : Nat), (submit_feature_tasks_go buffer i off).2 = false →
      (submit_feature_tasks_go buffer i off).1.length < i := by
  intro i
  induction i with
  | zero =>
    intro off h
    simp [submit_feature_tasks_go] at h
  | succ n ih =>
    intro off h
    rw [submit_feature_tasks_go] at h ⊢
    by_cases h1 : off + 4 > buffer.length
    · rw [if_pos h1]
      simp
    · rw [if_neg h1] at h ⊢
      simp only at h ⊢
      by_cases h2 : off + 4 + leNat buffer off 4 > buffer.length
      · rw [if_pos h2]
        simp
      · rw [if_neg h2] at h ⊢
        simp only at h ⊢
        simp only [List.length_cons]
        exact Nat.succ_lt_succ (ih _ h)

/-- C1 (amended): when the feature stream is truncated — the framing loop
reports failure — submission stops early (strictly fewer records than the
header's feature count), every feature submitted before the truncation point
still yields exactly one CSV row, in submission order, and the run does not
crash; but process_features still reports success, so the process exits with
status 0, not 1: collection compares the written count against the count
actually submitted rather than the header count. -/
theorem c1_truncation_rows_kept_exit_zero (ctx : pipeline_context) (buffer : List Nat)
    (features_count initial_offset : Nat)
    (h : (submit_feature_tasks buffer features_count initial_offset).2 = false) :
    (submit_feature_tasks buffer features_count initial_offset).1.length < features_count ∧
    (process_features_run ctx buffer features_count initial_offset).1 =
      ((submit_feature_tasks buffer features_count initial_offset).1.enum).map
        (fun p => process_single_feature_task (extract_task_input ctx p.2 p.1)) ∧
    run_application_exit_code ctx buffer features_count initial_offset = 0 := by
  refine ⟨submit_go_false_length_lt buffer features_count initial_offset h, ?_, ?_⟩
  · simp [process_features_run, collect_and_write_results]
  · simp [run_application_exit_code, process_features_run, collect_and_write_results]

/-- Witness for the amended C1 at the concrete truncated stream. -/
theorem c1_truncation_rows_kept_exit_zero_witness :
    (submit_feature_tasks c1_truncated_buffer 2 0).1.length < 2 ∧
    (process_features_run trivial_pipeline_context c1_truncated_buffer 2 0).1 =
      ((submit_feature_tasks c1_truncated_buffer 2 0).1.enum).map
        (fun p => process_single_feature_task
          (extract_task_input trivial_pipeline_context p.2 p.1)) ∧
    run_application_exit_code trivial_pipeline_context c1_truncated_buffer 2 0 = 0 :=
  c1_truncation_rows_kept_exit_zero trivial_pipeline_context c1_truncated_buffer 2 0 (by decide)

/-- C6: a property blob whose 2-byte column index is outside the schema's
range makes the scan stop immediately for that feature, yielding the empty
(default) value; and the run goes on regardless — the number of CSV rows
equals the number of well-framed submitted features for every context
(every schema, every parse result, every blob content), so the corruption is
never fatal to the run. -/
theorem c6_corrupt_column_index_not_fatal :
    (∀ (columns : List ColumnType) (blob : List Nat) (target off : Nat),
        off + 2 ≤ blob.length → columns.length ≤ leNat blob off 2 →
        scan_properties columns blob target off = ("", accessRange off 2)) ∧
    (∀ (ctx : pipeline_context) (buffer : List Nat) (features_count initial_offset : Nat),
        (process_features_run ctx buffer features_count initial_offset).1.length =
          (submit_feature_tasks buffer features_count initial_offset).1.length) := by
  constructor
  · intro columns blob target off h1 h2
    rw [scan_properties, dif_pos (by omega), if_neg (by omega)]
    simp only
    rw [if_pos h2]
  · intro ctx buffer fc io
    simp [process_features_run, collect_and_write_results]

/-- Witness for C6: a one-column schema against a blob whose first column
index is 5, and a concrete two-record stream processed end to end. -/
theorem c6_corrupt_column_index_not_fatal_witness :
    scan_properties [ColumnType.Byte] [5, 0] 0 0 = ("", accessRange 0 2) ∧
    (process_features_run trivial_pipeline_context c1_truncated_buffer 2 0).1.length =
      (submit_feature_tasks c1_truncated_buffer 2 0).1.length :=
  ⟨c6_corrupt_column_index_not_fatal.1 [ColumnType.Byte] [5, 0] 0 0 (by decide) (by decide),
    c6_corrupt_column_index_not_fatal.2 trivial_pipeline_context c1_truncated_buffer 2 0⟩

/-- Helper for claim C4: after any completion sequence, future slot i holds
task i's result exactly when i was completed and is a real slot; slots are
otherwise untouched. -/
theorem foldl_complete_getD (tasks : List task_input_data) (schedule : List Nat) :
    ∀ (results : List (Option task_result)) (i : Nat),
      (schedule.foldl (complete_task tasks) results).getD i none =
        if i ∈ schedule ∧ i < results.length then
          some (process_single_feature_task (tasks.getD i default))
        else results.getD i none := by
  induction schedule with
  | nil =>
    intro results i
    simp
  | cons j rest ih =>
    intro results i
    rw [List.foldl_cons, ih]
    by_cases hmem : i ∈ rest ∧ i < (complete_task tasks results j).length
    · rw [if_pos hmem]
      rw [if_pos ⟨List.mem_cons_of_mem j hmem.1, by
        have := hmem.2
        simpa [complete_task, List.length_set] using this⟩]
    · rw [if_neg hmem]
      simp only [complete_task, List.length_set] at hmem
      simp only [complete_task, List.getD_eq_getElem?_getD, List.getElem?_set]
      by_cases hij : j = i
      · subst hij
        by_cases hlen : j < results.length
        · rw [if_pos rfl, if_pos hlen]
          rw [if_pos ⟨List.mem_cons_self j rest, hlen⟩]
          rfl
        · rw [if_pos rfl, if_neg hlen, if_neg (by tauto)]
          rw [List.getElem?_eq_none (by omega)]
      · rw [if_neg hij]
        have : (i ∈ j :: rest ∧ i < results.length) ↔ (i ∈ rest ∧ i < results.length) := by
          constructor
          · rintro ⟨hm, hl⟩
            rcases List.mem_cons.1 hm with rfl | hm2
            · exact absurd rfl hij
            · exact ⟨hm2, hl⟩
          · rintro ⟨hm, hl⟩
            exact ⟨List.mem_cons_of_mem j hm, hl⟩
        rw [if_neg (by tauto)]

/-- Helper for claim C4: indexing a list by the range of its length
reproduces a map over the list. -/
theorem map_range_getD {β : Type} (l : List task_input_data) (g : task_input_data → β) :
    (List.range l.length).map (fun i => g (l.getD i default)) = l.map g := by
  induction l with
  | nil => rfl
  | cons a t ih =>
    rw [List.length_cons, List.range_succ_eq_map]
    simp only [List.map_cons, List.map_map, Function.comp_def, List.getD_cons_zero,
      List.getD_cons_succ]
    rw [ih]

/-- C4: for every task list and every completion order — any permutation of
the task indices — collecting the futures in submission order yields exactly
the sequence of per-task results in submission order: row i is the result of
the i-th submitted task, independent of when the tasks completed. -/
theorem c4_output_rows_in_submission_order (tasks : List task_input_data)
    (schedule : List Nat) (h : schedule.Perm (List.range tasks.length)) :
    collect_in_submission_order tasks schedule =
      tasks.map (fun t => some (process_single_feature_task t)) := by
  unfold collect_in_submission_order run_schedule
  have step : ∀ i ∈ List.range tasks.length,
      (schedule.foldl (complete_task tasks) (List.replicate tasks.length none)).getD i none =
        some (process_single_feature_task (tasks.getD i default)) := by
    intro i hi
    have hilen := List.mem_range.1 hi
    rw [foldl_complete_getD]
    rw [if_pos ⟨h.mem_iff.2 hi, by simpa using hilen⟩]
  rw [List.map_congr_left step]
  exact map_range_getD tasks (fun t => some (process_single_feature_task t))

/-- Witness for C4: two tasks completed in reverse order still collect in
submission order. -/
theorem c4_output_rows_in_submission_order_witness :
    collect_in_submission_order
      [⟨"a", 1, county_code.default, none, 2, .Unknown⟩,
        ⟨"b", 2, county_code.default, none, 2, .Unknown⟩] [1, 0] =
      ([⟨"a", 1, county_code.default, none, 2, .Unknown⟩,
        ⟨"b", 2, county_code.default, none, 2, .Unknown⟩] : List task_input_data).map
        (fun t => some (process_single_feature_task t)) :=
  c4_output_rows_in_submission_order _ [1, 0] (by decide)
